import Mathlib

/-!
Verification of the EdDSA (Ed25519) signing/verification protocol logic of
`lib/Crypto/Signature/eddsa.py`, shallowly embedded in Lean 4.

Bytes are modelled as natural numbers below 256, byte strings as `List Nat`.
The curve/hash collaborators (SHA-512, point arithmetic and the point codec,
which live outside this file's source) are abstracted as an interface
`EdCollab`; the algebraic facts the protocol relies on are collected in
`EdCollabLaws`, mirroring the collaborator contract.  A small executable
instance `toyC` lets us evaluate the protocol on concrete inputs.
-/

/-- Python errors raised by the protocol code: `TypeError` and `ValueError`,
with their message text. -/
inductive PyErr where
  | typeError (msg : String)
  | valueError (msg : String)
deriving DecidableEq, Repr

/-- Little-endian interpretation of a byte string as a natural number,
as `Integer.from_bytes(_, 'little')` does. -/
def natFromLeBytes (bs : List Nat) : Nat :=
  bs.foldr (fun b acc => b + 256 * acc) 0

/-- Little-endian encoding of a natural number on `n` bytes, as
`Integer.to_bytes(n, 'little')` does (the value is assumed to fit). -/
def natToLeBytes : Nat → Nat → List Nat
  | 0, _ => []
  | n + 1, v => v % 256 :: natToLeBytes n (v / 256)

/-- The bytes of an ASCII string literal. -/
def strBytes (s : String) : List Nat := s.toList.map (fun c => c.toNat)

/-- The 32-byte domain-separation tag used by dom2 in both `sign` and
`verify` (the Python byte literal on lines 127 and 172). -/
def edDomTag : List Nat := strBytes "SigEd25519 no Ed25519 collisions"

/-- The collaborator interface consumed by the protocol: curve points with
scalar multiplication, addition and a 32-byte codec, plus a 512-bit hash.
These operations live outside the source file under verification
(`Crypto.Hash.SHA512`, `Crypto.PublicKey.ECC`, `Crypto.Math.Numbers`). -/
structure EdCollab where
  Point : Type
  deq : DecidableEq Point
  /-- the base point `_curve.G` -/
  G : Point
  /-- the point at infinity (neutral element of the curve group) -/
  zeroP : Point
  /-- the group order `_curve.order`, called `L` in RFC 8032 -/
  L : Nat
  /-- scalar multiplication `Integer * EccPoint` -/
  smul : Nat → Point → Point
  /-- point addition `EccPoint + EccPoint` -/
  padd : Point → Point → Point
  /-- `_export_ed25519`: the canonical 32-byte compressed encoding -/
  encodePoint : Point → List Nat
  /-- `_import_ed25519_public_key` + `construct`: decoding of 32 bytes,
  `none` when the bytes are not a valid point encoding -/
  decodePoint : List Nat → Option Point
  /-- `SHA512.new(_).digest()`: a pure function from bytes to 64 bytes -/
  hash : List Nat → List Nat

instance (C : EdCollab) : DecidableEq C.Point := C.deq

/-- Modelled from the spec: the algebraic contract of the collaborators
(spec sections 1, 4.1 and 6), whose implementations are not part of the
source under `src/`: the points form a commutative group written
additively, `smul` is iterated addition, the base point `G` has order
dividing `L`, the point codec round-trips, encodings are 32 bytes, and
`L` is a positive integer fitting in 32 bytes. -/
structure EdCollabLaws (C : EdCollab) : Prop where
  padd_comm : ∀ P Q, C.padd P Q = C.padd Q P
  padd_assoc : ∀ P Q R, C.padd (C.padd P Q) R = C.padd P (C.padd Q R)
  padd_zero : ∀ P, C.padd P C.zeroP = P
  smul_zero : ∀ P, C.smul 0 P = C.zeroP
  smul_add : ∀ a b P, C.smul (a + b) P = C.padd (C.smul a P) (C.smul b P)
  smul_mul : ∀ a b P, C.smul (a * b) P = C.smul a (C.smul b P)
  smul_L_G : C.smul C.L C.G = C.zeroP
  decode_encode : ∀ P, C.decodePoint (C.encodePoint P) = some P
  encode_len : ∀ P, (C.encodePoint P).length = 32
  L_pos : 0 < C.L
  L_le : C.L ≤ 2 ^ 256

/-- The slice of `Crypto.PublicKey.ECC.EccKey` the protocol reads:
`has_private()`, the clamped secret scalar `d`, the nonce-derivation
secret `_prefix`, and the public point `pointQ`. -/
structure EccKey (C : EdCollab) where
  hasPrivate : Bool
  d : Nat
  prefixBytes : List Nat
  pointQ : C.Point

/-- `EdDSASigScheme`: the scheme object, holding the bound key, the bound
context, the cached public-key encoding `_A` and the group order `_order`. -/
structure EdDSASigScheme (C : EdCollab) where
  key : EccKey C
  context : List Nat
  A : List Nat
  order : Nat

/-- `EdDSASigScheme.__init__` (lines 88-98): stores the key and context and
precomputes `_A = key._export_ed25519()` and `_order = key._curve.order`. -/
def mkScheme (C : EdCollab) (key : EccKey C) (context : List Nat) :
    EdDSASigScheme C :=
  { key := key
    context := context
    A := C.encodePoint key.pointQ
    order := C.L }

/-- The `msg_or_hash` argument: raw bytes, a SHA-512 hash object (of which
the protocol only reads `digest()`), or any other Python object. -/
inductive MsgInput where
  | raw (bs : List Nat)
  | hashObj (digest : List Nat)
  | other
deriving DecidableEq

/-- `isinstance(msg_or_hash, SHA512.SHA512Hash)` (lines 121 and 166). -/
def msgPh : MsgInput → Bool
  | .hashObj _ => true
  | _ => false

/-- `is_bytes(msg_or_hash)` (lines 122 and 167). -/
def msgIsBytes : MsgInput → Bool
  | .raw _ => true
  | _ => false

/-- `PHM = msg_or_hash.digest() if ph else msg_or_hash` (lines 132 and 177);
unused for inputs that fail the preceding type check. -/
def msgPHM : MsgInput → List Nat
  | .raw bs => bs
  | .hashObj dg => dg
  | .other => []

/-- The dom2 construction in `sign` (lines 125-130): empty unless the bound
context is non-empty or the prehashed flag is set, and otherwise the tag
followed by the flag byte, the context-length byte and the context. -/
def signDom2 (context : List Nat) (ph : Bool) : List Nat :=
  if !context.isEmpty || ph then
    edDomTag ++ [if ph then 1 else 0] ++ [context.length % 256] ++ context
  else []

/-- The dom2 construction in `verify` (lines 170-175), transcribed from its
own lines: the source duplicates the code of lines 125-130 verbatim. -/
def verifyDom2 (context : List Nat) (ph : Bool) : List Nat :=
  if !context.isEmpty || ph then
    edDomTag ++ [if ph then 1 else 0] ++ [context.length % 256] ++ context
  else []

/-- The hash-to-scalar challenge shared by signing step 4 (lines 142-143)
and verification step 2 (lines 188-189): the 64-byte digest of
`dom2 + Rbytes + A + PHM` read little-endian and reduced mod the order. -/
def challenge (C : EdCollab) (dom2 Rbytes A PHM : List Nat)
    (order : Nat) : Nat :=
  natFromLeBytes (C.hash (dom2 ++ Rbytes ++ A ++ PHM)) % order

/-- `EdDSASigScheme.sign` (lines 106-147), transcribed in source order:
private-key check, input-type check, dom2, PHM, then the RFC 8032 steps
2-5 and the concatenation `R_pk + s.to_bytes(32, 'little')`. -/
def EdDSASigScheme.sign (C : EdCollab) (sch : EdDSASigScheme C)
    (m : MsgInput) : Except PyErr (List Nat) :=
  if !sch.key.hasPrivate then
    .error (.typeError "Private key is needed to sign")
  else if !(msgPh m || msgIsBytes m) then
    .error (.typeError "msg_or_hash must be bytes of a SHA-512 hash")
  else
    let dom2 := signDom2 sch.context (msgPh m)
    let PHM := msgPHM m
    let r := natFromLeBytes (C.hash (dom2 ++ sch.key.prefixBytes ++ PHM))
               % sch.order
    let R_pk := C.encodePoint (C.smul r C.G)
    let k := challenge C dom2 R_pk sch.A PHM sch.order
    let s := (r + k * sch.key.d) % sch.order
    .ok (R_pk ++ natToLeBytes 32 s)

/-- `EdDSASigScheme.verify` (lines 149-196), transcribed in source order:
length check, input-type check, dom2, PHM, point decoding of the first 32
bytes, the range check `s > order`, the challenge recomputation from the
raw first 32 bytes, and the cofactor-cleared equation
`s * 8 * G == 8 * R + k * 8 * pointQ`. -/
def EdDSASigScheme.verify (C : EdCollab) (sch : EdDSASigScheme C)
    (m : MsgInput) (signature : List Nat) : Except PyErr Unit :=
  if signature.length ≠ 64 then
    .error (.valueError "The signature is not authentic (length)")
  else if !(msgPh m || msgIsBytes m) then
    .error (.typeError "msg_or_hash must be bytes of a SHA-512 hash")
  else
    let dom2 := verifyDom2 sch.context (msgPh m)
    let PHM := msgPHM m
    match C.decodePoint (signature.take 32) with
    | none => .error (.valueError "The signature is not authentic (R)")
    | some R =>
      let s := natFromLeBytes (signature.drop 32)
      if s > sch.order then
        .error (.valueError "The signature is not authentic (S)")
      else
        let k := challenge C dom2 (signature.take 32) sch.A PHM sch.order
        let point1 := C.smul (s * 8) C.G
        let point2 := C.padd (C.smul 8 R) (C.smul (k * 8) sch.key.pointQ)
        if point1 ≠ point2 then
          .error (.valueError "The signature is not authentic")
        else .ok ()

/-- The `sign` method as a state transformer on the scheme object: a Python
method may rebind attributes of `self`, so the embedding threads the
object through; `sign` contains no attribute assignment (lines 106-147
only read `self`), so every exit returns the object it received. -/
def EdDSASigScheme.signSt (C : EdCollab) (sch : EdDSASigScheme C)
    (m : MsgInput) : Except PyErr (List Nat) × EdDSASigScheme C :=
  (EdDSASigScheme.sign C sch m, sch)

/-- The `verify` method as a state transformer on the scheme object;
`verify` (lines 149-196) contains no attribute assignment either. -/
def EdDSASigScheme.verifySt (C : EdCollab) (sch : EdDSASigScheme C)
    (m : MsgInput) (signature : List Nat) :
    Except PyErr Unit × EdDSASigScheme C :=
  (EdDSASigScheme.verify C sch m signature, sch)

/-- Modelled from the spec: the nonce of spec section 4.2, step 5 of
`sign` — `r = scalar(hash(dom2 ∥ prefix ∥ PHM)) mod L`, written from the
spec text for comparison with the transcription `EdDSASigScheme.sign`. -/
def specNonce (C : EdCollab) (key : EccKey C) (context : List Nat)
    (m : MsgInput) : Nat :=
  natFromLeBytes
    (C.hash (signDom2 context (msgPh m) ++ key.prefixBytes ++ msgPHM m))
    % C.L

/-- Modelled from the spec: the challenge of spec section 4.2, step 7 of
`sign` — `k = scalar(hash(dom2 ∥ encode(R) ∥ A_bytes ∥ PHM)) mod L` with
`R = r·G` and `A_bytes` the encoded public point. -/
def specChallenge (C : EdCollab) (key : EccKey C) (context : List Nat)
    (m : MsgInput) : Nat :=
  natFromLeBytes
    (C.hash (signDom2 context (msgPh m)
      ++ C.encodePoint (C.smul (specNonce C key context m) C.G)
      ++ C.encodePoint key.pointQ ++ msgPHM m)) % C.L

/-- Modelled from the spec: the signature scalar of spec section 4.2,
step 8 of `sign` — `s = (r + k·d) mod L`. -/
def specS (C : EdCollab) (key : EccKey C) (context : List Nat)
    (m : MsgInput) : Nat :=
  (specNonce C key context m + specChallenge C key context m * key.d) % C.L

/-- Modelled from the spec: the signature bytes described by spec section
4.2, steps 3-9 of `sign` — `encode(R) ∥ encode(s)`, written from the spec
text for comparison with the transcription `EdDSASigScheme.sign`. -/
def specSignature (C : EdCollab) (key : EccKey C) (context : List Nat)
    (m : MsgInput) : List Nat :=
  C.encodePoint (C.smul (specNonce C key context m) C.G)
    ++ natToLeBytes 32 (specS C key context m)

/-- A small executable collaborator: the curve group is modelled by the
additive group of `ZMod 40` (order `8 · 5`, cofactor 8 times a base point
of order `L = 5`), points are encoded as their value followed by 31 zero
bytes, and the hash is a simple fold producing 64 bytes. -/
@[reducible] def toyC : EdCollab where
  Point := ZMod 40
  deq := inferInstance
  G := 8
  zeroP := 0
  L := 5
  smul := fun n P => (n : ZMod 40) * P
  padd := fun P Q => P + Q
  encodePoint := fun P => P.val :: List.replicate 31 0
  decodePoint := fun bs =>
    match bs with
    | b :: rest =>
        if b < 40 ∧ rest = List.replicate 31 0 then some (b : ZMod 40)
        else none
    | [] => none
  hash := fun bs =>
    (List.range 64).map
      (fun i => (bs.foldl (fun a b => 31 * a + b) 7 + i) % 256)

/-- A toy private key: secret scalar `d = 3`, so `A = 3 · G = 24`. -/
def toyPrivKey : EccKey toyC where
  hasPrivate := true
  d := 3
  prefixBytes := List.replicate 32 7
  pointQ := (24 : ZMod 40)

/-- A toy public-only key bound to the point `0`. -/
def toyPubKey : EccKey toyC where
  hasPrivate := false
  d := 0
  prefixBytes := []
  pointQ := (0 : ZMod 40)

/-- A toy scheme over the private key with a two-byte context. -/
def toyPrivScheme : EdDSASigScheme toyC := mkScheme toyC toyPrivKey [1, 2]

/-- A toy scheme over the public-only key with an empty context. -/
def toyPubScheme : EdDSASigScheme toyC := mkScheme toyC toyPubKey []

/-- A 64-byte signature whose scalar half encodes exactly the group order
`L = 5` of `toyC`, and whose point half encodes the 8-torsion point `5`. -/
def sigSEqL : List Nat :=
  (5 :: List.replicate 31 0) ++ (5 :: List.replicate 31 0)

/-- The concrete signature produced by the toy private scheme on the
message `[10, 20]`. -/
def toySig : List Nat :=
  match EdDSASigScheme.sign toyC toyPrivScheme (.raw [10, 20]) with
  | .ok s => s
  | .error _ => []

/-- A 64-byte signature over `toyC` encoding the point `6` and the scalar
`1`, used to instantiate the verification-equation theorem. -/
def sigC4 : List Nat :=
  (6 :: List.replicate 31 0) ++ (1 :: List.replicate 31 0)

/-- A 64-byte signature over `toyC` encoding the point `7` and the scalar
`2`, used to instantiate the challenge-recomputation theorem. -/
def sigC7 : List Nat :=
  (7 :: List.replicate 31 0) ++ (2 :: List.replicate 31 0)

theorem natToLeBytes_length (n v : Nat) : (natToLeBytes n v).length = n := by
  induction n generalizing v with
  | zero => rfl
  | succ n ih => simp [natToLeBytes, ih]

theorem natFromLeBytes_toLe (n v : Nat) :
    natFromLeBytes (natToLeBytes n v) = v % 256 ^ n := by
  induction n generalizing v with
  | zero => simp [natToLeBytes, natFromLeBytes, Nat.mod_one]
  | succ n ih =>
    show v % 256 + 256 * natFromLeBytes (natToLeBytes n (v / 256)) = _
    rw [ih, pow_succ', Nat.mod_mul]

theorem msgGuard (m : MsgInput) (hm : m ≠ .other) :
    (msgPh m || msgIsBytes m) = true := by
  cases m with
  | raw bs => rfl
  | hashObj dg => rfl
  | other => exact absurd rfl hm

theorem dom2_agree (context : List Nat) (ph : Bool) :
    signDom2 context ph = verifyDom2 context ph := rfl

theorem smul_zeroP (C : EdCollab) (hL : EdCollabLaws C) (a : Nat) :
    C.smul a C.zeroP = C.zeroP := by
  rw [← hL.smul_zero C.G, ← hL.smul_mul, mul_zero, hL.smul_zero]

theorem smul_mod_mul_G (C : EdCollab) (hL : EdCollabLaws C) (n m : Nat) :
    C.smul (n % C.L * m) C.G = C.smul (n * m) C.G := by
  conv_rhs => rw [← Nat.mod_add_div n C.L]
  rw [Nat.add_mul, hL.smul_add]
  have h : C.smul (C.L * (n / C.L) * m) C.G = C.zeroP := by
    have hcomm : C.L * (n / C.L) * m = n / C.L * m * C.L := by ring
    rw [hcomm, hL.smul_mul, hL.smul_L_G, smul_zeroP C hL]
  rw [h, hL.padd_zero]

theorem toy_padd_comm (P Q : ZMod 40) : toyC.padd P Q = toyC.padd Q P :=
  add_comm P Q

theorem toy_padd_assoc (P Q R : ZMod 40) :
    toyC.padd (toyC.padd P Q) R = toyC.padd P (toyC.padd Q R) :=
  add_assoc P Q R

theorem toy_padd_zero (P : ZMod 40) : toyC.padd P toyC.zeroP = P :=
  add_zero P

theorem toy_smul_zero (P : ZMod 40) : toyC.smul 0 P = toyC.zeroP := by
  show ((0 : ℕ) : ZMod 40) * P = 0
  simp

theorem toy_smul_add (a b : ℕ) (P : ZMod 40) :
    toyC.smul (a + b) P = toyC.padd (toyC.smul a P) (toyC.smul b P) := by
  show ((a + b : ℕ) : ZMod 40) * P =
    ((a : ℕ) : ZMod 40) * P + ((b : ℕ) : ZMod 40) * P
  push_cast
  ring

theorem toy_smul_mul (a b : ℕ) (P : ZMod 40) :
    toyC.smul (a * b) P = toyC.smul a (toyC.smul b P) := by
  show ((a * b : ℕ) : ZMod 40) * P =
    ((a : ℕ) : ZMod 40) * (((b : ℕ) : ZMod 40) * P)
  push_cast
  ring

theorem toy_smul_L_G : toyC.smul toyC.L toyC.G = toyC.zeroP := by
  show ((5 : ℕ) : ZMod 40) * 8 = 0
  decide

theorem toy_decode_encode (P : ZMod 40) :
    toyC.decodePoint (toyC.encodePoint P) = some P := by
  show (if P.val < 40 ∧ List.replicate 31 (0 : Nat) = List.replicate 31 0
      then some ((P.val : ℕ) : ZMod 40) else none) = some P
  rw [if_pos ⟨ZMod.val_lt P, rfl⟩, ZMod.natCast_rightInverse P]

theorem toy_encode_len (P : ZMod 40) : (toyC.encodePoint P).length = 32 := by
  show (P.val :: List.replicate 31 0).length = 32
  simp

theorem toyLaws : EdCollabLaws toyC where
  padd_comm := toy_padd_comm
  padd_assoc := toy_padd_assoc
  padd_zero := toy_padd_zero
  smul_zero := toy_smul_zero
  smul_add := toy_smul_add
  smul_mul := toy_smul_mul
  smul_L_G := toy_smul_L_G
  decode_encode := toy_decode_encode
  encode_len := toy_encode_len
  L_pos := by decide
  L_le := by decide

/-- C6: signing is deterministic — threading the scheme object through one
call to `sign` and invoking `sign` again on the resulting object, with the
same message, produces a byte-identical result; no randomness is consumed,
as the embedding of `sign` reads nothing but the object and the message. -/
theorem claim6_sign_deterministic (C : EdCollab) (sch : EdDSASigScheme C)
    (m : MsgInput) :
    (EdDSASigScheme.signSt C sch m).1 =
      (EdDSASigScheme.signSt C (EdDSASigScheme.signSt C sch m).2 m).1 :=
  rfl

/-- C10: a scheme object is immutable — `sign` and `verify`, embedded as
state transformers on the object (key, context, cached `_A`, stored
`_order`), return the object unchanged whatever they are applied to and
whether they succeed or raise. -/
theorem claim10_scheme_immutable (C : EdCollab) (sch : EdDSASigScheme C)
    (m : MsgInput) (signature : List Nat) :
    (EdDSASigScheme.signSt C sch m).2 = sch ∧
      (EdDSASigScheme.verifySt C sch m signature).2 = sch :=
  ⟨rfl, rfl⟩

/-- C9: in `verify` the signature-length check precedes the message-type
check: a signature of length other than 64 raises the length `ValueError`
even on an invalidly-typed message; on a 64-byte signature an
invalidly-typed message raises a `TypeError`, a kind distinct from every
`ValueError` used for the other verification failures. -/
theorem claim9_length_before_type (C : EdCollab) (sch : EdDSASigScheme C)
    (m : MsgInput) (signature : List Nat) :
    (signature.length ≠ 64 →
      EdDSASigScheme.verify C sch m signature =
        .error (.valueError "The signature is not authentic (length)")) ∧
    (signature.length = 64 → m = .other →
      EdDSASigScheme.verify C sch m signature =
        .error (.typeError "msg_or_hash must be bytes of a SHA-512 hash")) ∧
    (∀ s t, PyErr.typeError s ≠ PyErr.valueError t) := by
  refine ⟨fun hlen => ?_, fun hlen hm => ?_, fun s t h => ?_⟩
  · rw [EdDSASigScheme.verify, if_pos hlen]
  · rw [EdDSASigScheme.verify, if_neg (by simp [hlen]), hm]
    rfl
  · exact PyErr.noConfusion h

/-- Closed witness for C9 at concrete inputs: a 1-byte signature with an
invalidly-typed message yields the length error, and a 64-byte signature
with an invalidly-typed message yields the type error. -/
theorem claim9_length_before_type_witness :
    EdDSASigScheme.verify toyC toyPubScheme .other [0] =
      .error (.valueError "The signature is not authentic (length)") ∧
    EdDSASigScheme.verify toyC toyPubScheme .other (List.replicate 64 0) =
      .error (.typeError "msg_or_hash must be bytes of a SHA-512 hash") :=
  ⟨(claim9_length_before_type toyC toyPubScheme .other [0]).1 (by decide),
   (claim9_length_before_type toyC toyPubScheme .other
      (List.replicate 64 0)).2.1 (by decide) rfl⟩

/-- C8 (counterexample): on a scheme bound to a public-only key, `sign`
applied to an invalidly-typed input raises the private-key error, not the
input-type error — the source checks `has_private()` (line 118) before it
inspects the type of `msg_or_hash` (lines 121-123), the reverse of the
claimed order. -/
theorem claim8_counterexample :
    EdDSASigScheme.sign toyC toyPubScheme .other =
      .error (.typeError "Private key is needed to sign") ∧
    PyErr.typeError "Private key is needed to sign" ≠
      PyErr.typeError "msg_or_hash must be bytes of a SHA-512 hash" :=
  ⟨rfl, by decide⟩

/-- C8 (amended): in `sign` the private-key check is step 1 and the
input-type determination is step 2: a key with no private half makes
`sign` fail with the private-key `TypeError` whatever the input, and only
for keys with private material does an invalidly-typed input produce the
input-type `TypeError`. -/
theorem claim8_private_check_first (C : EdCollab) (sch : EdDSASigScheme C)
    (m : MsgInput) :
    (sch.key.hasPrivate = false →
      EdDSASigScheme.sign C sch m =
        .error (.typeError "Private key is needed to sign")) ∧
    (sch.key.hasPrivate = true → m = .other →
      EdDSASigScheme.sign C sch m =
        .error (.typeError "msg_or_hash must be bytes of a SHA-512 hash")) := by
  refine ⟨fun hpriv => ?_, fun hpriv hm => ?_⟩
  · rw [EdDSASigScheme.sign, hpriv]
    rfl
  · rw [EdDSASigScheme.sign, hpriv, hm]
    rfl

/-- Closed witness for C8 (amended) at concrete schemes: the public-only
toy scheme fails with the private-key error on every input shape, and the
private toy scheme fails with the input-type error on the invalid input. -/
theorem claim8_private_check_first_witness :
    EdDSASigScheme.sign toyC toyPubScheme (.raw [1]) =
      .error (.typeError "Private key is needed to sign") ∧
    EdDSASigScheme.sign toyC toyPrivScheme .other =
      .error (.typeError "msg_or_hash must be bytes of a SHA-512 hash") :=
  ⟨(claim8_private_check_first toyC toyPubScheme (.raw [1])).1 rfl,
   (claim8_private_check_first toyC toyPrivScheme .other).2 rfl rfl⟩

/-- C5: `sign` and `verify` build identical dom2 values for every
(context, prehash-flag) pair; dom2 is empty exactly when the context is
empty and the flag is clear, and otherwise it is the 32-byte tag followed
by the flag byte, the context-length byte and the context itself. -/
theorem claim5_dom2 (context : List Nat) (ph : Bool)
    (hctx : context.length ≤ 255) :
    signDom2 context ph = verifyDom2 context ph ∧
    (signDom2 context ph = [] ↔ (context = [] ∧ ph = false)) ∧
    (¬(context = [] ∧ ph = false) →
      signDom2 context ph =
        edDomTag ++ [if ph then 1 else 0] ++ [context.length] ++ context) := by
  have hmod : context.length % 256 = context.length :=
    Nat.mod_eq_of_lt (Nat.lt_of_le_of_lt hctx (by decide))
  refine ⟨rfl, ?_, fun hne => ?_⟩
  · rw [signDom2]
    by_cases hc : context = []
    · subst hc
      cases ph with
      | false => simp
      | true => simp [edDomTag, strBytes]
    · have hne' : (!context.isEmpty || ph) = true := by
        simp [List.isEmpty_iff, hc]
      rw [hne']
      simp [edDomTag, strBytes, hc]
  · have hne' : (!context.isEmpty || ph) = true := by
      rcases not_and_or.mp hne with hc | hp
      · simp [List.isEmpty_iff, hc]
      · simp at hp
        simp [hp]
    rw [signDom2, hne']
    simp [hmod]

/-- Closed witness for C5 at a concrete pair: context `[9]` with the
prehash flag set. -/
theorem claim5_dom2_witness :
    signDom2 [9] true = verifyDom2 [9] true ∧
    signDom2 [9] true ≠ [] ∧
    signDom2 [9] true = edDomTag ++ [1] ++ [1] ++ [9] := by
  have h := claim5_dom2 [9] true (by decide)
  exact ⟨h.1, by simp [h.2.1], by simpa using h.2.2 (by simp)⟩

set_option maxRecDepth 10000 in
/-- C1 (code evaluated at the failing input): a 64-byte signature whose
last 32 bytes encode exactly the group order `L` is not rejected — the
range check on line 185 is `s > self._order`, so `s == L` slips through,
and with a suitable point half the whole verification even succeeds.  The
claim (and RFC 8032) demand rejection of every `s >= L`. -/
theorem claim1_s_equal_order_accepted :
    sigSEqL.length = 64 ∧
    natFromLeBytes (sigSEqL.drop 32) = toyC.L ∧
    EdDSASigScheme.verify toyC toyPubScheme (.raw []) sigSEqL = .ok () :=
  ⟨rfl, rfl, rfl⟩

/-- For a private key and type-valid input, the transcribed `sign` on a
freshly constructed scheme returns exactly the spec-side signature bytes. -/
theorem sign_eq_spec (C : EdCollab) (key : EccKey C) (context : List Nat)
    (m : MsgInput) (hpriv : key.hasPrivate = true) (hm : m ≠ .other) :
    EdDSASigScheme.sign C (mkScheme C key context) m =
      .ok (specSignature C key context m) := by
  have hg := msgGuard m hm
  simp [EdDSASigScheme.sign, mkScheme, hpriv, hg, specSignature, specS,
    specNonce, specChallenge, challenge]

/-- The spec-side signature is 64 bytes when point encodings are 32. -/
theorem specSignature_length (C : EdCollab)
    (hE : ∀ P, (C.encodePoint P).length = 32) (key : EccKey C)
    (context : List Nat) (m : MsgInput) :
    (specSignature C key context m).length = 64 := by
  rw [specSignature]
  simp [hE, natToLeBytes_length]

/-- C3: for every private key and type-valid input, `sign` succeeds and
returns exactly `encode(R) ∥ le32(s)` with `r`, `R`, `k`, `s` as the
spec's steps 5-8 prescribe (`specSignature`, written from the spec text);
the result is exactly 64 bytes when point encodings are 32 bytes. -/
theorem claim3_sign_refines_spec (C : EdCollab)
    (hE : ∀ P, (C.encodePoint P).length = 32)
    (key : EccKey C) (context : List Nat) (m : MsgInput)
    (hpriv : key.hasPrivate = true) (hm : m ≠ .other) :
    EdDSASigScheme.sign C (mkScheme C key context) m =
      .ok (specSignature C key context m) ∧
    (specSignature C key context m).length = 64 :=
  ⟨sign_eq_spec C key context m hpriv hm,
   specSignature_length C hE key context m⟩

/-- Closed witness for C3: the toy private key signing the raw message
`[10, 20]` under context `[1, 2]`. -/
theorem claim3_sign_refines_spec_witness :
    EdDSASigScheme.sign toyC (mkScheme toyC toyPrivKey [1, 2]) (.raw [10, 20]) =
      .ok (specSignature toyC toyPrivKey [1, 2] (.raw [10, 20])) ∧
    (specSignature toyC toyPrivKey [1, 2] (.raw [10, 20])).length = 64 :=
  claim3_sign_refines_spec toyC toy_encode_len toyPrivKey [1, 2]
    (.raw [10, 20]) rfl (by decide)

/-- Characterization of `verify` past the guards: with a 64-byte
signature, a type-valid message, a decodable point half and an in-range
scalar, `verify` succeeds exactly when the cofactor-cleared equation
holds, and otherwise produces the equation-mismatch error. -/
theorem verify_ok_iff (C : EdCollab) (sch : EdDSASigScheme C)
    (m : MsgInput) (sig : List Nat) (R : C.Point)
    (hlen : sig.length = 64) (hm : m ≠ .other)
    (hdec : C.decodePoint (sig.take 32) = some R)
    (hrange : natFromLeBytes (sig.drop 32) ≤ sch.order) :
    (EdDSASigScheme.verify C sch m sig = .ok () ↔
      C.smul (natFromLeBytes (sig.drop 32) * 8) C.G =
        C.padd (C.smul 8 R)
          (C.smul (challenge C (verifyDom2 sch.context (msgPh m)) (sig.take 32)
              sch.A (msgPHM m) sch.order * 8) sch.key.pointQ)) ∧
    (C.smul (natFromLeBytes (sig.drop 32) * 8) C.G ≠
        C.padd (C.smul 8 R)
          (C.smul (challenge C (verifyDom2 sch.context (msgPh m)) (sig.take 32)
              sch.A (msgPHM m) sch.order * 8) sch.key.pointQ) →
      EdDSASigScheme.verify C sch m sig =
        .error (.valueError "The signature is not authentic")) := by
  have hg := msgGuard m hm
  rw [EdDSASigScheme.verify, if_neg (by simp [hlen]), if_neg (by simp [hg])]
  simp only [hdec]
  rw [if_neg (not_lt.mpr hrange)]
  by_cases heq : C.smul (natFromLeBytes (sig.drop 32) * 8) C.G =
      C.padd (C.smul 8 R)
        (C.smul (challenge C (verifyDom2 sch.context (msgPh m)) (sig.take 32)
            sch.A (msgPHM m) sch.order * 8) sch.key.pointQ)
  · simp [heq]
  · simp [heq]

/-- C4: for a 64-byte signature whose first 32 bytes decode to a point `R`
and whose scalar passes the range check, `verify` succeeds iff the
cofactor-cleared equation `8·s·G = 8·R + 8·k·A` holds, and otherwise
fails with the invalid-signature `ValueError`. -/
theorem claim4_verify_equation (C : EdCollab) (sch : EdDSASigScheme C)
    (m : MsgInput) (sig : List Nat) (R : C.Point)
    (hlen : sig.length = 64) (hm : m ≠ .other)
    (hdec : C.decodePoint (sig.take 32) = some R)
    (hrange : natFromLeBytes (sig.drop 32) ≤ sch.order) :
    (EdDSASigScheme.verify C sch m sig = .ok () ↔
      C.smul (natFromLeBytes (sig.drop 32) * 8) C.G =
        C.padd (C.smul 8 R)
          (C.smul (challenge C (verifyDom2 sch.context (msgPh m)) (sig.take 32)
              sch.A (msgPHM m) sch.order * 8) sch.key.pointQ)) ∧
    (C.smul (natFromLeBytes (sig.drop 32) * 8) C.G ≠
        C.padd (C.smul 8 R)
          (C.smul (challenge C (verifyDom2 sch.context (msgPh m)) (sig.take 32)
              sch.A (msgPHM m) sch.order * 8) sch.key.pointQ) →
      EdDSASigScheme.verify C sch m sig =
        .error (.valueError "The signature is not authentic")) :=
  verify_ok_iff C sch m sig R hlen hm hdec hrange

set_option maxRecDepth 10000 in
/-- Closed witness for C4: the toy private scheme checking the signature
`sigC4` (point `6`, scalar `1`) over the raw message `[3]`. -/
theorem claim4_verify_equation_witness :
    sigC4.length = 64 ∧
    toyC.decodePoint (sigC4.take 32) = some (6 : ZMod 40) ∧
    natFromLeBytes (sigC4.drop 32) ≤ toyPrivScheme.order ∧
    (EdDSASigScheme.verify toyC toyPrivScheme (.raw [3]) sigC4 = .ok () ↔
      toyC.smul (natFromLeBytes (sigC4.drop 32) * 8) toyC.G =
        toyC.padd (toyC.smul 8 (6 : ZMod 40))
          (toyC.smul
            (challenge toyC
              (verifyDom2 toyPrivScheme.context (msgPh (.raw [3])))
              (sigC4.take 32) toyPrivScheme.A (msgPHM (.raw [3]))
              toyPrivScheme.order * 8) toyPrivScheme.key.pointQ)) :=
  ⟨by decide, by rfl, by decide,
   (claim4_verify_equation toyC toyPrivScheme (.raw [3]) sigC4 (6 : ZMod 40)
      (by decide) (by decide) (by rfl) (by decide)).1⟩

/-- C7: past the decode step, `verify` behaves as the range check followed
by the cofactor-cleared equation in which the challenge `k` is recomputed
by the same `challenge` computation as signing step 7 (same dom2 rule,
the scheme's own cached `A_bytes`), applied to the 32-byte encoding of
the decoded point `R` — provided the codec is canonical at this input,
i.e. `encode(decode(first 32 bytes)) = first 32 bytes`; the source feeds
`signature[:32]` itself to the hash (line 188), which coincides with the
decoded point's encoding exactly under that proviso. -/
theorem claim7_challenge_recomputation (C : EdCollab)
    (sch : EdDSASigScheme C) (m : MsgInput) (sig : List Nat) (R : C.Point)
    (hlen : sig.length = 64) (hm : m ≠ .other)
    (hdec : C.decodePoint (sig.take 32) = some R)
    (hcanon : C.encodePoint R = sig.take 32) :
    EdDSASigScheme.verify C sch m sig =
      (if natFromLeBytes (sig.drop 32) > sch.order then
        .error (.valueError "The signature is not authentic (S)")
      else if C.smul (natFromLeBytes (sig.drop 32) * 8) C.G =
          C.padd (C.smul 8 R)
            (C.smul (challenge C (signDom2 sch.context (msgPh m))
                (C.encodePoint R) sch.A (msgPHM m) sch.order * 8)
              sch.key.pointQ) then .ok ()
      else .error (.valueError "The signature is not authentic")) := by
  have hg := msgGuard m hm
  rw [EdDSASigScheme.verify, if_neg (by simp [hlen]), if_neg (by simp [hg])]
  simp only [hdec]
  rw [dom2_agree sch.context (msgPh m), hcanon]
  by_cases hs : natFromLeBytes (sig.drop 32) > sch.order
  · rw [if_pos hs, if_pos hs]
  · rw [if_neg hs, if_neg hs]
    by_cases heq : C.smul (natFromLeBytes (sig.drop 32) * 8) C.G =
        C.padd (C.smul 8 R)
          (C.smul (challenge C (verifyDom2 sch.context (msgPh m))
              (sig.take 32) sch.A (msgPHM m) sch.order * 8)
            sch.key.pointQ)
    · simp [heq]
    · simp [heq]

set_option maxRecDepth 10000 in
/-- Closed witness for C7: the toy public scheme checking the signature
`sigC7` (point `7`, scalar `2`) over the empty raw message; the
characterization given by the theorem evaluates to the equation-mismatch
error on this input. -/
theorem claim7_challenge_recomputation_witness :
    sigC7.length = 64 ∧
    toyC.decodePoint (sigC7.take 32) = some (7 : ZMod 40) ∧
    toyC.encodePoint (7 : ZMod 40) = sigC7.take 32 ∧
    EdDSASigScheme.verify toyC toyPubScheme (.raw []) sigC7 =
      .error (.valueError "The signature is not authentic") :=
  ⟨by decide, by rfl, by rfl,
   (claim7_challenge_recomputation toyC toyPubScheme (.raw []) sigC7
      (7 : ZMod 40) (by decide) (by decide) (by rfl) (by rfl)).trans (by rfl)⟩

/-- C2: sign-then-verify round trip — for every collaborator satisfying
the contract, every key with private material whose public point is
`d·G`, every context of at most 255 bytes, and every type-valid message
(raw bytes or a hash object in prehashed mode), a signature produced by
`sign` on a scheme built from the key and context is accepted by `verify`
on a scheme built from the same key, context and mode. -/
theorem claim2_sign_then_verify (C : EdCollab) (hL : EdCollabLaws C)
    (key : EccKey C) (context : List Nat) (m : MsgInput)
    (hpriv : key.hasPrivate = true)
    (hQ : key.pointQ = C.smul key.d C.G)
    (hctx : context.length ≤ 255) (hm : m ≠ .other) :
    ∀ sig, EdDSASigScheme.sign C (mkScheme C key context) m = .ok sig →
      EdDSASigScheme.verify C (mkScheme C key context) m sig = .ok () := by
  intro sig hsig
  rw [sign_eq_spec C key context m hpriv hm] at hsig
  have hsig' := Except.ok.inj hsig
  subst hsig'
  have hE := hL.encode_len
  have htake : (specSignature C key context m).take 32
      = C.encodePoint (C.smul (specNonce C key context m) C.G) := by
    rw [specSignature]
    exact List.take_left' (hE _)
  have hdrop : (specSignature C key context m).drop 32
      = natToLeBytes 32 (specS C key context m) := by
    rw [specSignature]
    exact List.drop_left' (hE _)
  have hsLt : specS C key context m < C.L :=
    Nat.mod_lt _ hL.L_pos
  have h2 : (2 : ℕ) ^ 256 = 256 ^ 32 := by norm_num
  have hsVal : natFromLeBytes ((specSignature C key context m).drop 32)
      = specS C key context m := by
    rw [hdrop, natFromLeBytes_toLe]
    exact Nat.mod_eq_of_lt (lt_of_lt_of_le hsLt (h2 ▸ hL.L_le))
  have hdec : C.decodePoint ((specSignature C key context m).take 32)
      = some (C.smul (specNonce C key context m) C.G) := by
    rw [htake]
    exact hL.decode_encode _
  have hlen : (specSignature C key context m).length = 64 :=
    specSignature_length C hE key context m
  have hrange : natFromLeBytes ((specSignature C key context m).drop 32)
      ≤ (mkScheme C key context).order := by
    rw [hsVal]
    exact le_of_lt hsLt
  have hkeq : challenge C
      (verifyDom2 (mkScheme C key context).context (msgPh m))
      ((specSignature C key context m).take 32)
      (mkScheme C key context).A (msgPHM m)
      (mkScheme C key context).order = specChallenge C key context m := by
    rw [htake]
    rfl
  have heq : C.smul
      (natFromLeBytes ((specSignature C key context m).drop 32) * 8) C.G =
      C.padd (C.smul 8 (C.smul (specNonce C key context m) C.G))
        (C.smul (challenge C
            (verifyDom2 (mkScheme C key context).context (msgPh m))
            ((specSignature C key context m).take 32)
            (mkScheme C key context).A (msgPHM m)
            (mkScheme C key context).order * 8)
          (mkScheme C key context).key.pointQ) := by
    rw [hsVal, hkeq]
    show C.smul (specS C key context m * 8) C.G =
      C.padd (C.smul 8 (C.smul (specNonce C key context m) C.G))
        (C.smul (specChallenge C key context m * 8) key.pointQ)
    rw [hQ, ← hL.smul_mul 8 (specNonce C key context m),
      ← hL.smul_mul (specChallenge C key context m * 8) key.d,
      ← hL.smul_add]
    rw [show specS C key context m =
      (specNonce C key context m
        + specChallenge C key context m * key.d) % C.L from rfl]
    rw [smul_mod_mul_G C hL
      (specNonce C key context m + specChallenge C key context m * key.d) 8]
    congr 1
    ring
  exact ((verify_ok_iff C (mkScheme C key context) m
    (specSignature C key context m)
    (C.smul (specNonce C key context m) C.G)
    hlen hm hdec hrange).1).mpr heq

set_option maxRecDepth 10000 in
/-- Closed witness for C2: the toy private key under context `[1, 2]`
signing the raw message `[10, 20]`; the produced signature `toySig` is
accepted by `verify` on the same scheme. -/
theorem claim2_sign_then_verify_witness :
    toyPrivKey.hasPrivate = true ∧
    toyPrivKey.pointQ = toyC.smul toyPrivKey.d toyC.G ∧
    EdDSASigScheme.sign toyC (mkScheme toyC toyPrivKey [1, 2])
      (.raw [10, 20]) = .ok toySig ∧
    EdDSASigScheme.verify toyC (mkScheme toyC toyPrivKey [1, 2])
      (.raw [10, 20]) toySig = .ok () :=
  ⟨rfl, by rfl, by rfl,
   claim2_sign_then_verify toyC toyLaws toyPrivKey [1, 2] (.raw [10, 20])
     rfl (by rfl) (by decide) (by decide) toySig (by rfl)⟩
